import Mathlib

/-!
# Verification of the stellar-zk-gaming repository

Shallow embedding of the zk-game-theory commit–reveal game.

The repository snapshot contains the generated TypeScript contract bindings
(`frontend/vite.config.ts`, concatenated bindings section), the frontend
(`ZkGameTheoryGame.tsx`, `ZkUtils`), and build scripts.  The Soroban contract
itself (`zk-game-theory/contracts`, referenced by the README) is not present
in source form, so the contract-side operations below are modelled from the
specification, as marked in their doc comments.  Everything embedded from
present source names the file and lines it comes from.
-/

namespace ZkGameTheory

/-- Opaque 32-byte commitment digest (the core only stores and compares it). -/
abbrev Digest := Nat

/-- Opaque proof blob. -/
abbrev ZkProof := Nat

/-- Opaque verification-key blob. -/
abbrev VKey := Nat

/-- Opaque player identity handle (a Stellar address string in the bindings). -/
abbrev PlayerId := String

/-- Contract error kinds, embedded from the bindings `Errors` object
(`frontend/vite.config.ts`, bindings section lines 108–118, codes 1–9). -/
inductive Err
  | GameNotFound
  | NotPlayer
  | AlreadyCommitted
  | BothPlayersNotCommitted
  | GameAlreadyEnded
  | InvalidMove
  | VerificationFailed
  | VkNotSet
  | AlreadyRevealed
deriving DecidableEq, Repr

/-- Numeric error code of each kind, per the bindings `Errors` object. -/
def Err.code : Err → Nat
  | .GameNotFound => 1
  | .NotPlayer => 2
  | .AlreadyCommitted => 3
  | .BothPlayersNotCommitted => 4
  | .GameAlreadyEnded => 5
  | .InvalidMove => 6
  | .VerificationFailed => 7
  | .VkNotSet => 8
  | .AlreadyRevealed => 9

/-- Message string of each kind, per the bindings `Errors` object. -/
def Err.message : Err → String
  | .GameNotFound => "GameNotFound"
  | .NotPlayer => "NotPlayer"
  | .AlreadyCommitted => "AlreadyCommitted"
  | .BothPlayersNotCommitted => "BothPlayersNotCommitted"
  | .GameAlreadyEnded => "GameAlreadyEnded"
  | .InvalidMove => "InvalidMove"
  | .VerificationFailed => "VerificationFailed"
  | .VkNotSet => "VkNotSet"
  | .AlreadyRevealed => "AlreadyRevealed"

/-- The bindings `Errors` object transcribed verbatim from
`frontend/vite.config.ts` lines 108–118: code-to-message table. -/
def errorsTable : List (Nat × String) :=
  [(1, "GameNotFound"),
   (2, "NotPlayer"),
   (3, "AlreadyCommitted"),
   (4, "BothPlayersNotCommitted"),
   (5, "GameAlreadyEnded"),
   (6, "InvalidMove"),
   (7, "VerificationFailed"),
   (8, "VkNotSet"),
   (9, "AlreadyRevealed")]

/-- All nine error kinds, listed once. -/
def allErrs : List Err :=
  [.GameNotFound, .NotPlayer, .AlreadyCommitted, .BothPlayersNotCommitted,
   .GameAlreadyEnded, .InvalidMove, .VerificationFailed, .VkNotSet, .AlreadyRevealed]

/-- Game record, fields exactly per the bindings `Game` interface
(`frontend/vite.config.ts` lines 95–106).  The `Map<u32, _>` fields are
embedded as partial functions from round numbers. -/
structure Game where
  current_round : Nat
  is_complete : Bool
  p1_commitments : Nat → Option Digest
  p1_moves : Nat → Option Nat
  p1_score : Nat
  p2_commitments : Nat → Option Digest
  p2_moves : Nat → Option Nat
  p2_score : Nat
  player1 : PlayerId
  player2 : PlayerId

/-- Field names and declared types of the bindings `Game` interface,
transcribed from `frontend/vite.config.ts` lines 95–106. -/
def gameFieldTypes : List (String × String) :=
  [("current_round", "u32"),
   ("is_complete", "boolean"),
   ("p1_commitments", "Map<u32, Buffer>"),
   ("p1_moves", "Map<u32, u32>"),
   ("p1_score", "u32"),
   ("p2_commitments", "Map<u32, Buffer>"),
   ("p2_moves", "Map<u32, u32>"),
   ("p2_score", "u32"),
   ("player1", "string"),
   ("player2", "string")]

/-- Point-update of a round-keyed map. -/
def mupdate (m : Nat → Option α) (k : Nat) (v : α) : Nat → Option α :=
  fun r => if r = k then some v else m r

/-- Per-round score deltas of the payoff matrix, embedded from the frontend
round-history computation (`ZkGameTheoryGame.tsx` lines 986–991); the same
matrix is stated for the contract in spec §4.4. -/
def roundPoints (p1Move p2Move : Nat) : Nat × Nat :=
  if p1Move = 0 ∧ p2Move = 0 then (3, 3)
  else if p1Move = 1 ∧ p2Move = 1 then (1, 1)
  else if p1Move = 0 ∧ p2Move = 1 then (0, 5)
  else if p1Move = 1 ∧ p2Move = 0 then (5, 0)
  else (0, 0)

/-- Who receives what at settlement. -/
inductive SettleOutcome
  | evenSplit
  | majorityToP1
  | majorityToP2
deriving DecidableEq, Repr

/-- Modelled from the spec: §4.4 settlement comparison of final scores —
equal scores split the combined stake evenly, otherwise the higher scorer
receives the majority share.  (Contract source absent from the snapshot.) -/
def settleOutcome (s1 s2 : Nat) : SettleOutcome :=
  if s1 = s2 then .evenSplit
  else if s2 < s1 then .majorityToP1
  else .majorityToP2

/-- Result of a `reveal_move` transaction: a typed success (with the
settlement outcome when the game just completed), a typed error, or a
host-level transaction abort (failed treasury sub-call, spec §4.4/§5). -/
inductive RevealResult
  | ok : Game → Option SettleOutcome → RevealResult
  | err : Err → RevealResult
  | abort : RevealResult

/-- Modelled from the spec: §4.2 start_game's fresh Game — round 1, zero
scores, empty maps, not complete.  (Contract source absent.) -/
def freshGame (player1 player2 : PlayerId) : Game :=
  { current_round := 1
    is_complete := false
    p1_commitments := fun _ => none
    p1_moves := fun _ => none
    p1_score := 0
    p2_commitments := fun _ => none
    p2_moves := fun _ => none
    p2_score := 0
    player1 := player1
    player2 := player2 }

/-- Modelled from the spec: §4.2 commit_move — checks in the spec's order
(GameNotFound, NotPlayer, GameAlreadyEnded, AlreadyCommitted), then stores
the digest at (player, current_round).  (Contract source absent.) -/
def commit_move (gOpt : Option Game) (player : PlayerId) (commitment : Digest) :
    Except Err Game :=
  match gOpt with
  | none => .error .GameNotFound
  | some g =>
    if player = g.player1 ∨ player = g.player2 then
      if g.is_complete then .error .GameAlreadyEnded
      else if player = g.player1 then
        match g.p1_commitments g.current_round with
        | some _ => .error .AlreadyCommitted
        | none =>
          .ok { g with p1_commitments := mupdate g.p1_commitments g.current_round commitment }
      else
        match g.p2_commitments g.current_round with
        | some _ => .error .AlreadyCommitted
        | none =>
          .ok { g with p2_commitments := mupdate g.p2_commitments g.current_round commitment }
    else .error .NotPlayer

/-- Modelled from the spec: §4.2 reveal_move's post-record step — when both
moves for the current round are present, score the round per the payoff
matrix, then either advance the round or, at round 5, complete the game and
settle through the treasury (`treasuryOk`); a failed treasury call aborts
the whole transaction.  (Contract source absent.) -/
def finishReveal (treasuryOk : Bool) (g : Game) : RevealResult :=
  match g.p1_moves g.current_round, g.p2_moves g.current_round with
  | some m1, some m2 =>
    let d := roundPoints m1 m2
    let g2 : Game := { g with p1_score := g.p1_score + d.1, p2_score := g.p2_score + d.2 }
    if g2.current_round = 5 then
      if treasuryOk then
        .ok { g2 with is_complete := true } (some (settleOutcome g2.p1_score g2.p2_score))
      else .abort
    else .ok { g2 with current_round := g2.current_round + 1 } none
  | _, _ => .ok g none

/-- Modelled from the spec: §4.2 reveal_move — checks in the spec's order
(GameNotFound, NotPlayer, GameAlreadyEnded, VkNotSet, BothPlayersNotCommitted,
InvalidMove, AlreadyRevealed, VerificationFailed), then records the move and
runs `finishReveal`.  The proof system is the opaque collaborator `verify`.
(Contract source absent.) -/
def reveal_move (verify : VKey → Digest → Nat → ZkProof → Bool) (vkOpt : Option VKey)
    (treasuryOk : Bool) (gOpt : Option Game) (player : PlayerId)
    (move_val : Nat) (proof : ZkProof) : RevealResult :=
  match gOpt with
  | none => .err .GameNotFound
  | some g =>
    if player = g.player1 ∨ player = g.player2 then
      if g.is_complete then .err .GameAlreadyEnded
      else
        match vkOpt with
        | none => .err .VkNotSet
        | some vk =>
          match g.p1_commitments g.current_round, g.p2_commitments g.current_round with
          | some d1, some d2 =>
            if move_val = 0 ∨ move_val = 1 then
              if player = g.player1 then
                match g.p1_moves g.current_round with
                | some _ => .err .AlreadyRevealed
                | none =>
                  if verify vk d1 move_val proof then
                    finishReveal treasuryOk
                      { g with p1_moves := mupdate g.p1_moves g.current_round move_val }
                  else .err .VerificationFailed
              else
                match g.p2_moves g.current_round with
                | some _ => .err .AlreadyRevealed
                | none =>
                  if verify vk d2 move_val proof then
                    finishReveal treasuryOk
                      { g with p2_moves := mupdate g.p2_moves g.current_round move_val }
                  else .err .VerificationFailed
            else .err .InvalidMove
          | _, _ => .err .BothPlayersNotCommitted
    else .err .NotPlayer

/-- Modelled from the spec: §4.1/§6 get_game — look up the stored Game,
`GameNotFound` when absent.  (Contract source absent.) -/
def get_game (store : Nat → Option Game) (session_id : Nat) : Except Err Game :=
  match store session_id with
  | none => .error .GameNotFound
  | some g => .ok g

/-- Modelled from the spec: §5 atomic persistence for commit_move — only a
successful call writes the mutated Game back; a typed error leaves the store
byte-for-byte unchanged. -/
def applyCommit (store : Nat → Option Game) (sid : Nat) :
    Except Err Game → (Nat → Option Game)
  | .ok g => mupdate store sid g
  | .error _ => store

/-- Modelled from the spec: §5 atomic persistence for reveal_move — only a
typed success persists; a typed error or a transaction abort leaves the
store unchanged. -/
def applyReveal (store : Nat → Option Game) (sid : Nat) :
    RevealResult → (Nat → Option Game)
  | .ok g _ => mupdate store sid g
  | .err _ => store
  | .abort => store

/-- Games reachable through the modelled state machine: a fresh game from
start_game, followed by successful commit and reveal transitions (failed
calls leave state unchanged, so they induce no transition). -/
inductive Reachable : Game → Prop
  | start (p1 p2 : PlayerId) : Reachable (freshGame p1 p2)
  | commit {g g' : Game} {pl : PlayerId} {c : Digest} :
      Reachable g → commit_move (some g) pl c = .ok g' → Reachable g'
  | reveal {g g' : Game} {verify : VKey → Digest → Nat → ZkProof → Bool}
      {vkOpt : Option VKey} {tOk : Bool} {pl : PlayerId} {mv : Nat} {pf : ZkProof}
      {s : Option SettleOutcome} :
      Reachable g → reveal_move verify vkOpt tOk (some g) pl mv pf = .ok g' s →
      Reachable g'

/-- TypeScript return types appearing in the bindings `Client` declaration
(`frontend/vite.config.ts` lines 122–160 and the `fromJSON` table lines
194–202). -/
inductive TsRetType
  | nullType
  | stringType
  | resultVoid
  | resultGame
deriving DecidableEq, Repr

/-- The bindings `Client.fromJSON` table transcribed from
`frontend/vite.config.ts` lines 194–202: each public operation and the type
its transaction result decodes to. -/
def clientReturnTypes : List (String × TsRetType) :=
  [("upgrade", .nullType),
   ("get_game", .resultGame),
   ("get_admin", .stringType),
   ("start_game", .resultVoid),
   ("commit_move", .resultVoid),
   ("reveal_move", .resultVoid),
   ("set_verification_key", .nullType)]

/-- Whether a bindings return type is a typed success/error wrapper. -/
def TsRetType.isTypedResult : TsRetType → Bool
  | .resultVoid => true
  | .resultGame => true
  | _ => false

/-- JS `salt.startsWith(` followed by the 0x literal `)`, over the salt's
character list. -/
def startsWith0x : List Char → Bool
  | '0' :: 'x' :: _ => true
  | _ => false

/-- Embedding of `ZkUtils.calculateCommitment` (`frontend/vite.config.ts`
ZkUtils section lines 235–257): normalize the salt to a 0x-form hex field
string, then run the hash-only Noir circuit (the opaque collaborator
`hashCircuit`) on (move, normalized salt) and return its digest. -/
def calculateCommitment (hashCircuit : Nat → List Char → List Char)
    (mv : Nat) (salt : List Char) : List Char :=
  let saltHex := if startsWith0x salt then salt else '0' :: 'x' :: salt
  hashCircuit mv saltHex

/-- Embedding of the `crypto.getRandomValues` branch of
`createRandomSessionId` (`ZkGameTheoryGame.tsx` lines 10–19): draw u32
samples until one is nonzero; `draws` is the stream of successive
`Uint32Array` samples of one execution (each `< 2^32`). -/
def sessionIdFromDraws : List Nat → Option Nat
  | [] => none
  | v :: rest => if v = 0 then sessionIdFromDraws rest else some v

/-- Embedding of the `Math.random` fallback of `createRandomSessionId`
(`ZkGameTheoryGame.tsx` line 21): `Math.random()` is modelled exactly as a
rational `num / den` with `0 ≤ num < den`; the JS expression floors
`random * 0xffffffff`, coerces with an unsigned shift (reduction mod `2^32`),
and replaces 0 by 1. -/
def sessionIdFallback (num den : Nat) : Nat :=
  let v := (num * 0xffffffff / den) % 2 ^ 32
  if v = 0 then 1 else v

/-- The round-`current_round` commitment slot of a player (player1's map when
the caller equals player1, else player2's), as consulted by reveal_move. -/
def Game.commitmentOf (g : Game) (pl : PlayerId) : Option Digest :=
  if pl = g.player1 then g.p1_commitments g.current_round
  else g.p2_commitments g.current_round

/-- The round-`current_round` move slot of a player, as consulted by
reveal_move's AlreadyRevealed check. -/
def Game.moveOf (g : Game) (pl : PlayerId) : Option Nat :=
  if pl = g.player1 then g.p1_moves g.current_round
  else g.p2_moves g.current_round

/-! ## Helper lemmas -/

theorem finishReveal_no_err (tOk : Bool) (g : Game) (e : Err) :
    finishReveal tOk g ≠ .err e := by
  unfold finishReveal
  split
  · dsimp only
    split
    · split <;> simp
    · simp
  · simp

theorem reveal_success_p1 (verify : VKey → Digest → Nat → ZkProof → Bool) (vk : VKey)
    (tOk : Bool) (g : Game) (move_val : Nat) (pf : ZkProof) (d1 d2 : Digest)
    (hic : g.is_complete = false)
    (hc1 : g.p1_commitments g.current_round = some d1)
    (hc2 : g.p2_commitments g.current_round = some d2)
    (hmv : move_val = 0 ∨ move_val = 1)
    (hm1 : g.p1_moves g.current_round = none)
    (hv : verify vk d1 move_val pf = true) :
    reveal_move verify (some vk) tOk (some g) g.player1 move_val pf =
      finishReveal tOk { g with p1_moves := mupdate g.p1_moves g.current_round move_val } := by
  simp [reveal_move, hic, hc1, hc2, hm1, hv, hmv]

theorem reveal_success_p2 (verify : VKey → Digest → Nat → ZkProof → Bool) (vk : VKey)
    (tOk : Bool) (g : Game) (player : PlayerId) (move_val : Nat) (pf : ZkProof)
    (d1 d2 : Digest)
    (hpl2 : player = g.player2) (hne : player ≠ g.player1)
    (hic : g.is_complete = false)
    (hc1 : g.p1_commitments g.current_round = some d1)
    (hc2 : g.p2_commitments g.current_round = some d2)
    (hmv : move_val = 0 ∨ move_val = 1)
    (hm2 : g.p2_moves g.current_round = none)
    (hv : verify vk d2 move_val pf = true) :
    reveal_move verify (some vk) tOk (some g) player move_val pf =
      finishReveal tOk { g with p2_moves := mupdate g.p2_moves g.current_round move_val } := by
  subst hpl2
  simp [reveal_move, hic, hc1, hc2, hm2, hv, hmv, hne]

/-! ## Claim theorems -/

/-- C9: for every move value and every salt that does not already carry the
0x marker, `ZkUtils.calculateCommitment` yields the same digest on the bare
salt as on the marked salt: the salt is normalized to the 0x form before the
hash circuit runs, so both spellings commit to the same digest. -/
theorem c9_salt_normalization (hashCircuit : Nat → List Char → List Char)
    (mv : Nat) (salt : List Char) (h : startsWith0x salt = false) :
    calculateCommitment hashCircuit mv salt
      = calculateCommitment hashCircuit mv ('0' :: 'x' :: salt) := by
  simp only [calculateCommitment]
  rw [h]
  simp [startsWith0x]

theorem c9_salt_normalization_witness :
    startsWith0x [ 'a', 'b' ] = false ∧
    calculateCommitment (fun _ s => s) 0 [ 'a', 'b' ]
      = calculateCommitment (fun _ s => s) 0 ('0' :: 'x' :: [ 'a', 'b' ]) :=
  ⟨by decide, c9_salt_normalization (fun _ s => s) 0 [ 'a', 'b' ] (by decide)⟩

/-- C10: every value produced by `createRandomSessionId` is a nonzero u32:
the `crypto.getRandomValues` loop returns the first nonzero u32 draw, and the
`Math.random` fallback (random modelled exactly as a rational in [0,1))
lands in [1, 2^32 - 1] after flooring, unsigned coercion and the `|| 1`
guard. -/
theorem c10_session_id_range :
    (∀ draws : List Nat, (∀ v ∈ draws, v < 2 ^ 32) →
      ∀ r, sessionIdFromDraws draws = some r → 1 ≤ r ∧ r ≤ 2 ^ 32 - 1) ∧
    (∀ num den : Nat, num < den →
      1 ≤ sessionIdFallback num den ∧ sessionIdFallback num den ≤ 2 ^ 32 - 1) := by
  constructor
  · intro draws
    induction draws with
    | nil => intro _ r hr; simp [sessionIdFromDraws] at hr
    | cons v rest ih =>
      intro hb r hr
      unfold sessionIdFromDraws at hr
      by_cases hv : v = 0
      · rw [if_pos hv] at hr
        exact ih (fun x hx => hb x (List.mem_cons_of_mem v hx)) r hr
      · rw [if_neg hv] at hr
        cases hr
        have hlt : v < 2 ^ 32 := hb v (List.mem_cons_self v rest)
        exact ⟨Nat.one_le_iff_ne_zero.mpr hv, by omega⟩
  · intro num den h
    have hden : 0 < den := Nat.lt_of_le_of_lt (Nat.zero_le _) h
    have hlt : num * 0xffffffff / den < 0xffffffff := by
      rw [Nat.div_lt_iff_lt_mul hden, Nat.mul_comm 0xffffffff den]
      exact mul_lt_mul_of_pos_right h (by norm_num)
    have hmod : (num * 0xffffffff / den) % 2 ^ 32 = num * 0xffffffff / den :=
      Nat.mod_eq_of_lt (lt_trans hlt (by norm_num))
    simp only [sessionIdFallback, hmod]
    by_cases hz : num * 0xffffffff / den = 0
    · rw [if_pos hz]
      norm_num
    · rw [if_neg hz]
      exact ⟨Nat.one_le_iff_ne_zero.mpr hz, by omega⟩

theorem c10_session_id_range_witness :
    ((∀ v ∈ [0, 7], v < 2 ^ 32) ∧ sessionIdFromDraws [0, 7] = some 7 ∧
      1 ≤ 7 ∧ 7 ≤ 2 ^ 32 - 1) ∧
    (1 < 2 ∧ 1 ≤ sessionIdFallback 1 2 ∧ sessionIdFallback 1 2 ≤ 2 ^ 32 - 1) := by
  have h1 := c10_session_id_range.1 [0, 7] (by decide) 7 (by decide)
  have h2 := c10_session_id_range.2 1 2 (by norm_num)
  exact ⟨⟨by decide, by decide, h1⟩, ⟨by norm_num, h2⟩⟩

/-- C5 counterexample: in the bindings `Client.fromJSON` table, `upgrade` and
`set_verification_key` decode to plain `null`, not to a typed
`Result<void, Error>` wrapper — refuting the claim that these two return a
success/error result like the game operations do. -/
theorem c5_counterexample :
    clientReturnTypes.lookup "upgrade" = some TsRetType.nullType ∧
    clientReturnTypes.lookup "set_verification_key" = some TsRetType.nullType ∧
    TsRetType.isTypedResult .nullType = false := by decide

/-- C5 amended: `start_game`, `commit_move` and `reveal_move` return
`Result<void, Error>` and `get_game` returns `Result<Game, Error>` at the
public interface, while `set_verification_key` and `upgrade` return plain
void (`null`), not a typed Result. -/
theorem c5_return_types :
    clientReturnTypes.lookup "start_game" = some TsRetType.resultVoid ∧
    clientReturnTypes.lookup "commit_move" = some TsRetType.resultVoid ∧
    clientReturnTypes.lookup "reveal_move" = some TsRetType.resultVoid ∧
    clientReturnTypes.lookup "get_game" = some TsRetType.resultGame ∧
    clientReturnTypes.lookup "upgrade" = some TsRetType.nullType ∧
    clientReturnTypes.lookup "set_verification_key" = some TsRetType.nullType ∧
    TsRetType.isTypedResult .resultVoid = true ∧
    TsRetType.isTypedResult .resultGame = true ∧
    TsRetType.isTypedResult .nullType = false := by decide

/-- C7: `get_game` returns the stored Game record — whose wire shape carries
exactly the ten fields of the bindings `Game` interface — and fails with
`GameNotFound` exactly when the session id has no stored Game. -/
theorem c7_get_game_shape (store : Nat → Option Game) (sid : Nat) :
    (store sid = none → get_game store sid = .error .GameNotFound) ∧
    (∀ g, store sid = some g → get_game store sid = .ok g) ∧
    (∀ e, get_game store sid = .error e → e = .GameNotFound ∧ store sid = none) ∧
    gameFieldTypes.map Prod.fst =
      ["current_round", "is_complete", "p1_commitments", "p1_moves", "p1_score",
       "p2_commitments", "p2_moves", "p2_score", "player1", "player2"] := by
  refine ⟨fun h => by simp [get_game, h], fun g h => by simp [get_game, h], ?_, by decide⟩
  intro e he
  unfold get_game at he
  cases hs : store sid with
  | none => rw [hs] at he; exact ⟨by cases he; rfl, rfl⟩
  | some g => rw [hs] at he; cases he

theorem c7_get_game_shape_witness :
    get_game (fun _ => none) 42 = .error .GameNotFound ∧
    get_game (mupdate (fun _ => none) 42 (freshGame "A" "B")) 42
      = .ok (freshGame "A" "B") :=
  ⟨(c7_get_game_shape (fun _ => none) 42).1 rfl,
   (c7_get_game_shape (mupdate (fun _ => none) 42 (freshGame "A" "B")) 42).2.1
     (freshGame "A" "B") (by simp [mupdate])⟩

theorem finishReveal_spec (g : Game) (m1 m2 : Nat)
    (hm1 : g.p1_moves g.current_round = some m1)
    (hm2 : g.p2_moves g.current_round = some m2) :
    ∃ g' s, finishReveal true g = .ok g' s ∧
      g'.p1_score = g.p1_score + (roundPoints m1 m2).1 ∧
      g'.p2_score = g.p2_score + (roundPoints m1 m2).2 ∧
      g'.p1_moves = g.p1_moves ∧ g'.p2_moves = g.p2_moves ∧
      g'.p1_commitments = g.p1_commitments ∧ g'.p2_commitments = g.p2_commitments ∧
      g'.player1 = g.player1 ∧ g'.player2 = g.player2 ∧
      (g.current_round = 5 →
        g'.is_complete = true ∧ g'.current_round = 5 ∧
        s = some (settleOutcome g'.p1_score g'.p2_score)) ∧
      (g.current_round ≠ 5 →
        g'.is_complete = g.is_complete ∧ g'.current_round = g.current_round + 1 ∧
        s = none) := by
  unfold finishReveal
  rw [hm1, hm2]
  dsimp only
  by_cases h5 : g.current_round = 5
  · rw [if_pos h5, if_pos rfl]
    exact ⟨_, _, rfl, rfl, rfl, rfl, rfl, rfl, rfl, rfl, rfl,
      fun _ => ⟨rfl, h5, rfl⟩, fun h => absurd h5 h⟩
  · rw [if_neg h5]
    exact ⟨_, _, rfl, rfl, rfl, rfl, rfl, rfl, rfl, rfl, rfl,
      fun h => absurd h h5, fun _ => ⟨rfl, rfl, rfl⟩⟩

/-- C1: for every round r in [1,5], when the second reveal of round r lands
(the other player's move already recorded), the per-round deltas follow the
payoff matrix — (0,0) gives +3/+3, (1,1) gives +1/+1, (0,1) gives +0/+5,
(1,0) gives +5/+0 — added to the cumulative scores, and current_round
becomes r+1, except that at r = 5 is_complete becomes true instead. -/
theorem c1_round_scoring (verify : VKey → Digest → Nat → ZkProof → Bool) (vk : VKey)
    (g : Game) (player : PlayerId) (move_val : Nat) (pf : ZkProof)
    (m1 m2 : Nat) (d1 d2 : Digest)
    (hr1 : 1 ≤ g.current_round) (hr5 : g.current_round ≤ 5)
    (hic : g.is_complete = false)
    (hc1 : g.p1_commitments g.current_round = some d1)
    (hc2 : g.p2_commitments g.current_round = some d2)
    (hmv : move_val = 0 ∨ move_val = 1)
    (hcase :
      (player = g.player1 ∧ g.p1_moves g.current_round = none ∧
        g.p2_moves g.current_round = some m2 ∧ m1 = move_val ∧
        verify vk d1 move_val pf = true) ∨
      (player = g.player2 ∧ player ≠ g.player1 ∧ g.p2_moves g.current_round = none ∧
        g.p1_moves g.current_round = some m1 ∧ m2 = move_val ∧
        verify vk d2 move_val pf = true)) :
    roundPoints 0 0 = (3, 3) ∧ roundPoints 1 1 = (1, 1) ∧
    roundPoints 0 1 = (0, 5) ∧ roundPoints 1 0 = (5, 0) ∧
    ∃ g' s, reveal_move verify (some vk) true (some g) player move_val pf = .ok g' s ∧
      g'.p1_score = g.p1_score + (roundPoints m1 m2).1 ∧
      g'.p2_score = g.p2_score + (roundPoints m1 m2).2 ∧
      (g.current_round < 5 → g'.current_round = g.current_round + 1 ∧
        g'.is_complete = false) ∧
      (g.current_round = 5 → g'.is_complete = true) := by
  refine ⟨by decide, by decide, by decide, by decide, ?_⟩
  rcases hcase with ⟨hpl, hm1n, hm2s, hm1eq, hv⟩ | ⟨hpl2, hne, hm2n, hm1s, hm2eq, hv⟩
  · subst hpl
    subst hm1eq
    rw [reveal_success_p1 verify vk true g m1 pf d1 d2 hic hc1 hc2 hmv hm1n hv]
    obtain ⟨g', s, heq, hs1, hs2, _, _, _, _, _, _, h5, hn5⟩ :=
      finishReveal_spec { g with p1_moves := mupdate g.p1_moves g.current_round m1 }
        m1 m2 (by simp [mupdate]) hm2s
    refine ⟨g', s, heq, hs1, hs2, ?_, ?_⟩
    · intro hlt
      have h := hn5 (Nat.ne_of_lt hlt)
      exact ⟨h.2.1, by rw [h.1]; exact hic⟩
    · intro h5'
      exact (h5 h5').1
  · subst hm2eq
    rw [reveal_success_p2 verify vk true g player m2 pf d1 d2 hpl2 hne hic hc1 hc2
      hmv hm2n hv]
    obtain ⟨g', s, heq, hs1, hs2, _, _, _, _, _, _, h5, hn5⟩ :=
      finishReveal_spec { g with p2_moves := mupdate g.p2_moves g.current_round m2 }
        m1 m2 hm1s (by simp [mupdate])
    refine ⟨g', s, heq, hs1, hs2, ?_, ?_⟩
    · intro hlt
      have h := hn5 (Nat.ne_of_lt hlt)
      exact ⟨h.2.1, by rw [h.1]; exact hic⟩
    · intro h5'
      exact (h5 h5').1

/-- Spec Scenario A mid-state: both players committed for round 1 and
player 1 already revealed move 0. -/
def gScenarioA : Game :=
  { freshGame "P1" "P2" with
      p1_commitments := mupdate (fun _ => none) 1 0xAA
      p2_commitments := mupdate (fun _ => none) 1 0xBB
      p1_moves := mupdate (fun _ => none) 1 0 }

theorem c1_round_scoring_witness :
    gScenarioA.current_round = 1 ∧ gScenarioA.is_complete = false ∧
    gScenarioA.p1_commitments 1 = some 0xAA ∧ gScenarioA.p2_commitments 1 = some 0xBB ∧
    gScenarioA.p1_moves 1 = some 0 ∧ gScenarioA.p2_moves 1 = none ∧
    (∃ g' s,
      reveal_move (fun _ _ _ _ => true) (some 0) true (some gScenarioA) "P2" 1 0
        = .ok g' s ∧
      g'.p1_score = gScenarioA.p1_score + (roundPoints 0 1).1 ∧
      g'.p2_score = gScenarioA.p2_score + (roundPoints 0 1).2 ∧
      (gScenarioA.current_round < 5 →
        g'.current_round = gScenarioA.current_round + 1 ∧ g'.is_complete = false) ∧
      (gScenarioA.current_round = 5 → g'.is_complete = true)) := by
  refine ⟨by decide, by decide, by decide, by decide, by decide, by decide, ?_⟩
  exact (c1_round_scoring (fun _ _ _ _ => true) 0 gScenarioA "P2" 1 0 0 1 0xAA 0xBB
    (by decide) (by decide) (by decide) (by decide) (by decide) (by decide)
    (Or.inr ⟨rfl, by decide, by decide, by decide, rfl, rfl⟩)).2.2.2.2

theorem settleOutcome_cases (s1 s2 : Nat) :
    (s1 = s2 → settleOutcome s1 s2 = .evenSplit) ∧
    (s2 < s1 → settleOutcome s1 s2 = .majorityToP1) ∧
    (s1 < s2 → settleOutcome s1 s2 = .majorityToP2) := by
  unfold settleOutcome
  refine ⟨fun h => by simp [h], fun h => ?_, fun h => ?_⟩
  · rw [if_neg (by omega), if_pos h]
  · rw [if_neg (by omega), if_neg (by omega)]

theorem finishReveal_abort (g : Game) (m1 m2 : Nat)
    (h5 : g.current_round = 5)
    (hm1 : g.p1_moves g.current_round = some m1)
    (hm2 : g.p2_moves g.current_round = some m2) :
    finishReveal false g = .abort := by
  unfold finishReveal
  rw [hm1, hm2]
  dsimp only
  rw [if_pos h5]
  rfl

/-- C3: a reveal that completes round 5 performs settlement in the same
transaction — equal final scores split the combined stake evenly, unequal
final scores pay the majority share to the higher scorer — and if the
treasury settlement call fails, the whole reveal transaction aborts so that
neither the round's score updates nor is_complete = true are persisted. -/
theorem c3_settlement_atomic (verify : VKey → Digest → Nat → ZkProof → Bool) (vk : VKey)
    (g : Game) (player : PlayerId) (move_val : Nat) (pf : ZkProof)
    (m1 m2 : Nat) (d1 d2 : Digest) (store : Nat → Option Game) (sid : Nat)
    (hr : g.current_round = 5)
    (hic : g.is_complete = false)
    (hc1 : g.p1_commitments g.current_round = some d1)
    (hc2 : g.p2_commitments g.current_round = some d2)
    (hmv : move_val = 0 ∨ move_val = 1)
    (hcase :
      (player = g.player1 ∧ g.p1_moves g.current_round = none ∧
        g.p2_moves g.current_round = some m2 ∧ m1 = move_val ∧
        verify vk d1 move_val pf = true) ∨
      (player = g.player2 ∧ player ≠ g.player1 ∧ g.p2_moves g.current_round = none ∧
        g.p1_moves g.current_round = some m1 ∧ m2 = move_val ∧
        verify vk d2 move_val pf = true)) :
    (∃ g' s, reveal_move verify (some vk) true (some g) player move_val pf
        = .ok g' (some s) ∧
      g'.is_complete = true ∧
      g'.p1_score = g.p1_score + (roundPoints m1 m2).1 ∧
      g'.p2_score = g.p2_score + (roundPoints m1 m2).2 ∧
      (g'.p1_score = g'.p2_score → s = .evenSplit) ∧
      (g'.p2_score < g'.p1_score → s = .majorityToP1) ∧
      (g'.p1_score < g'.p2_score → s = .majorityToP2)) ∧
    (reveal_move verify (some vk) false (some g) player move_val pf = .abort ∧
      applyReveal store sid .abort = store) := by
  rcases hcase with ⟨hpl, hm1n, hm2s, hm1eq, hv⟩ | ⟨hpl2, hne, hm2n, hm1s, hm2eq, hv⟩
  · subst hpl
    subst hm1eq
    constructor
    · rw [reveal_success_p1 verify vk true g m1 pf d1 d2 hic hc1 hc2 hmv hm1n hv]
      obtain ⟨g', s, heq, hs1, hs2, _, _, _, _, _, _, h5, _⟩ :=
        finishReveal_spec { g with p1_moves := mupdate g.p1_moves g.current_round m1 }
          m1 m2 (by simp [mupdate]) hm2s
      obtain ⟨hcomp, _, hset⟩ := h5 hr
      refine ⟨g', settleOutcome g'.p1_score g'.p2_score, by rw [heq, hset], hcomp,
        hs1, hs2, ?_, ?_, ?_⟩
      · exact (settleOutcome_cases g'.p1_score g'.p2_score).1
      · exact (settleOutcome_cases g'.p1_score g'.p2_score).2.1
      · exact (settleOutcome_cases g'.p1_score g'.p2_score).2.2
    · refine ⟨?_, rfl⟩
      rw [reveal_success_p1 verify vk false g m1 pf d1 d2 hic hc1 hc2 hmv hm1n hv]
      exact finishReveal_abort _ m1 m2 hr (by simp [mupdate]) hm2s
  · subst hm2eq
    constructor
    · rw [reveal_success_p2 verify vk true g player m2 pf d1 d2 hpl2 hne hic hc1 hc2
        hmv hm2n hv]
      obtain ⟨g', s, heq, hs1, hs2, _, _, _, _, _, _, h5, _⟩ :=
        finishReveal_spec { g with p2_moves := mupdate g.p2_moves g.current_round m2 }
          m1 m2 hm1s (by simp [mupdate])
      obtain ⟨hcomp, _, hset⟩ := h5 hr
      refine ⟨g', settleOutcome g'.p1_score g'.p2_score, by rw [heq, hset], hcomp,
        hs1, hs2, ?_, ?_, ?_⟩
      · exact (settleOutcome_cases g'.p1_score g'.p2_score).1
      · exact (settleOutcome_cases g'.p1_score g'.p2_score).2.1
      · exact (settleOutcome_cases g'.p1_score g'.p2_score).2.2
    · refine ⟨?_, rfl⟩
      rw [reveal_success_p2 verify vk false g player m2 pf d1 d2 hpl2 hne hic hc1 hc2
        hmv hm2n hv]
      exact finishReveal_abort _ m1 m2 hr hm1s (by simp [mupdate])

/-- Spec Scenario B mid-state: round 5, scores 12/12 after four cooperative
rounds, both players committed for round 5, player 1 already revealed 0. -/
def gScenarioB : Game :=
  { freshGame "P1" "P2" with
      current_round := 5
      p1_score := 12
      p2_score := 12
      p1_commitments := mupdate (fun _ => none) 5 0xAA
      p2_commitments := mupdate (fun _ => none) 5 0xBB
      p1_moves := mupdate (fun _ => none) 5 0 }

theorem c3_settlement_atomic_witness :
    gScenarioB.current_round = 5 ∧ gScenarioB.is_complete = false ∧
    (∃ g' s,
      reveal_move (fun _ _ _ _ => true) (some 0) true (some gScenarioB) "P2" 0 0
        = .ok g' (some s) ∧
      g'.is_complete = true ∧
      g'.p1_score = gScenarioB.p1_score + (roundPoints 0 0).1 ∧
      g'.p2_score = gScenarioB.p2_score + (roundPoints 0 0).2 ∧
      (g'.p1_score = g'.p2_score → s = .evenSplit) ∧
      (g'.p2_score < g'.p1_score → s = .majorityToP1) ∧
      (g'.p1_score < g'.p2_score → s = .majorityToP2)) ∧
    (reveal_move (fun _ _ _ _ => true) (some 0) false (some gScenarioB) "P2" 0 0
        = .abort ∧
      applyReveal (fun _ => none) 42 .abort = (fun _ => none : Nat → Option Game)) := by
  refine ⟨by decide, by decide, ?_, ?_⟩
  · exact (c3_settlement_atomic (fun _ _ _ _ => true) 0 gScenarioB "P2" 0 0 0 0 0xAA 0xBB
      (fun _ => none) 42 (by decide) (by decide) (by decide) (by decide) (by decide)
      (Or.inr ⟨rfl, by decide, by decide, by decide, rfl, rfl⟩)).1
  · exact (c3_settlement_atomic (fun _ _ _ _ => true) 0 gScenarioB "P2" 0 0 0 0 0xAA 0xBB
      (fun _ => none) 42 (by decide) (by decide) (by decide) (by decide) (by decide)
      (Or.inr ⟨rfl, by decide, by decide, by decide, rfl, rfl⟩)).2

theorem finishReveal_ok (g : Game) :
    ∃ g' s, finishReveal true g = .ok g' s ∧
      g'.p1_moves = g.p1_moves ∧ g'.p2_moves = g.p2_moves := by
  cases hm1 : g.p1_moves g.current_round with
  | none =>
    cases hm2 : g.p2_moves g.current_round with
    | none =>
      refine ⟨g, none, ?_, rfl, rfl⟩
      unfold finishReveal
      rw [hm1, hm2]
    | some m2 =>
      refine ⟨g, none, ?_, rfl, rfl⟩
      unfold finishReveal
      rw [hm1, hm2]
  | some m1 =>
    cases hm2 : g.p2_moves g.current_round with
    | none =>
      refine ⟨g, none, ?_, rfl, rfl⟩
      unfold finishReveal
      rw [hm1, hm2]
    | some m2 =>
      obtain ⟨g', s, heq, _, _, hp1, hp2, _⟩ := finishReveal_spec g m1 m2 hm1 hm2
      exact ⟨g', s, heq, hp1, hp2⟩

/-- C2: on an existing, non-complete game with a valid player, reveal_move
fails VkNotSet when no verification key is configured; fails
BothPlayersNotCommitted unless both players hold a commitment for
current_round; fails InvalidMove when move_val is neither 0 nor 1; fails
AlreadyRevealed when the player already has a move for current_round; fails
VerificationFailed when the proof does not verify against the stored
commitment and move; and only otherwise records the move. -/
theorem c2_reveal_errors (verify : VKey → Digest → Nat → ZkProof → Bool)
    (g : Game) (player : PlayerId) (move_val : Nat) (pf : ZkProof)
    (hpl : player = g.player1 ∨ player = g.player2)
    (hic : g.is_complete = false) :
    (reveal_move verify none true (some g) player move_val pf = .err .VkNotSet) ∧
    (∀ vk, (g.p1_commitments g.current_round = none ∨
        g.p2_commitments g.current_round = none) →
      reveal_move verify (some vk) true (some g) player move_val pf
        = .err .BothPlayersNotCommitted) ∧
    (∀ vk d1 d2, g.p1_commitments g.current_round = some d1 →
      g.p2_commitments g.current_round = some d2 →
      ((move_val ≠ 0 ∧ move_val ≠ 1) →
        reveal_move verify (some vk) true (some g) player move_val pf
          = .err .InvalidMove) ∧
      ((move_val = 0 ∨ move_val = 1) →
        ((∃ m, g.moveOf player = some m) →
          reveal_move verify (some vk) true (some g) player move_val pf
            = .err .AlreadyRevealed) ∧
        (g.moveOf player = none →
          (verify vk (if player = g.player1 then d1 else d2) move_val pf = false →
            reveal_move verify (some vk) true (some g) player move_val pf
              = .err .VerificationFailed) ∧
          (verify vk (if player = g.player1 then d1 else d2) move_val pf = true →
            ∃ g' s, reveal_move verify (some vk) true (some g) player move_val pf
                = .ok g' s ∧
              (if player = g.player1 then g'.p1_moves else g'.p2_moves) g.current_round
                = some move_val)))) := by
  refine ⟨by simp [reveal_move, hpl, hic], ?_, ?_⟩
  · intro vk h
    rcases h with h1 | h2
    · simp [reveal_move, hpl, hic, h1]
    · cases hc : g.p1_commitments g.current_round with
      | none => simp [reveal_move, hpl, hic, hc]
      | some d => simp [reveal_move, hpl, hic, hc, h2]
  · intro vk d1 d2 hc1 hc2
    constructor
    · intro hmv
      simp [reveal_move, hpl, hic, hc1, hc2, hmv.1, hmv.2]
    · intro hmv
      constructor
      · rintro ⟨m, hm⟩
        by_cases hp1 : player = g.player1
        · rw [Game.moveOf, if_pos hp1] at hm
          simp [reveal_move, hpl, hic, hc1, hc2, hmv, hp1, hm]
        · rw [Game.moveOf, if_neg hp1] at hm
          have hp2 : player = g.player2 := hpl.resolve_left hp1
          simp [reveal_move, hpl, hic, hc1, hc2, hmv, hp1, hp2, hm]
          intro hq
          exact absurd (hp2.trans hq) hp1
      · intro hm
        by_cases hp1 : player = g.player1
        · rw [Game.moveOf, if_pos hp1] at hm
          constructor
          · intro hv
            rw [if_pos hp1] at hv
            simp [reveal_move, hpl, hic, hc1, hc2, hmv, hp1, hm, hv]
          · intro hv
            rw [if_pos hp1] at hv
            subst hp1
            rw [reveal_success_p1 verify vk true g move_val pf d1 d2 hic hc1 hc2 hmv hm hv]
            obtain ⟨g', s, heq, hmp1, _⟩ :=
              finishReveal_ok { g with p1_moves := mupdate g.p1_moves g.current_round move_val }
            refine ⟨g', s, heq, ?_⟩
            rw [if_pos rfl, hmp1]
            simp [mupdate]
        · rw [Game.moveOf, if_neg hp1] at hm
          have hp2 : player = g.player2 := hpl.resolve_left hp1
          constructor
          · intro hv
            rw [if_neg hp1] at hv
            simp [reveal_move, hpl, hic, hc1, hc2, hmv, hp1, hp2, hm, hv]
            intro hq
            exact absurd (hp2.trans hq) hp1
          · intro hv
            rw [if_neg hp1] at hv
            rw [reveal_success_p2 verify vk true g player move_val pf d1 d2 hp2 hp1 hic
              hc1 hc2 hmv hm hv]
            obtain ⟨g', s, heq, _, hmp2⟩ :=
              finishReveal_ok { g with p2_moves := mupdate g.p2_moves g.current_round move_val }
            refine ⟨g', s, heq, ?_⟩
            rw [if_neg hp1, hmp2]
            simp [mupdate]

theorem c2_reveal_errors_witness :
    ("P2" = gScenarioA.player1 ∨ "P2" = gScenarioA.player2) ∧
    gScenarioA.is_complete = false ∧
    reveal_move (fun _ _ _ _ => true) none true (some gScenarioA) "P2" 1 0
      = .err .VkNotSet :=
  ⟨Or.inr rfl, rfl,
   (c2_reveal_errors (fun _ _ _ _ => true) gScenarioA "P2" 1 0 (Or.inr rfl) rfl).1⟩

/-- C8: after a successful commit_move for (player, current_round), a second
commit_move for the same player and round always fails with
AlreadyCommitted, and the stored Game after the failed call is identical to
the stored Game before it (only a success is ever written back). -/
theorem c8_double_commit (g g' : Game) (player : PlayerId) (c c' : Digest)
    (store : Nat → Option Game) (sid : Nat)
    (h : commit_move (some g) player c = .ok g') :
    commit_move (some g') player c' = .error .AlreadyCommitted ∧
    applyCommit (mupdate store sid g') sid (commit_move (some g') player c')
      = mupdate store sid g' := by
  have hsecond : commit_move (some g') player c' = .error .AlreadyCommitted := by
    unfold commit_move at h
    dsimp only at h
    by_cases hpl : player = g.player1 ∨ player = g.player2
    · rw [if_pos hpl] at h
      cases hic : g.is_complete with
      | true => rw [hic] at h; simp at h
      | false =>
        rw [hic] at h
        simp only [Bool.false_eq_true, if_false] at h
        by_cases hp1 : player = g.player1
        · rw [if_pos hp1] at h
          cases hc : g.p1_commitments g.current_round with
          | some d => rw [hc] at h; cases h
          | none =>
            rw [hc] at h
            cases h
            simp [commit_move, hp1, hic, mupdate]
        · rw [if_neg hp1] at h
          cases hc : g.p2_commitments g.current_round with
          | some d => rw [hc] at h; cases h
          | none =>
            rw [hc] at h
            cases h
            have hp2 : player = g.player2 := hpl.resolve_left hp1
            simp [commit_move, hp1, hp2, hic, mupdate]
            intro hq
            exact absurd (hp2.trans hq) hp1
    · rw [if_neg hpl] at h
      cases h
  refine ⟨hsecond, ?_⟩
  rw [hsecond]
  rfl

theorem c8_double_commit_witness :
    commit_move (some (freshGame "P1" "P2")) "P1" 5
      = .ok { freshGame "P1" "P2" with p1_commitments := mupdate (fun _ => none) 1 5 } ∧
    commit_move
        (some { freshGame "P1" "P2" with p1_commitments := mupdate (fun _ => none) 1 5 })
        "P1" 7
      = .error .AlreadyCommitted ∧
    applyCommit
        (mupdate (fun _ => none) 42
          { freshGame "P1" "P2" with p1_commitments := mupdate (fun _ => none) 1 5 })
        42
        (commit_move
          (some { freshGame "P1" "P2" with p1_commitments := mupdate (fun _ => none) 1 5 })
          "P1" 7)
      = mupdate (fun _ => none) 42
          { freshGame "P1" "P2" with p1_commitments := mupdate (fun _ => none) 1 5 } := by
  have h : commit_move (some (freshGame "P1" "P2")) "P1" 5
      = .ok { freshGame "P1" "P2" with p1_commitments := mupdate (fun _ => none) 1 5 } := by
    simp [commit_move, freshGame, mupdate]
  have h2 := c8_double_commit (freshGame "P1" "P2")
    { freshGame "P1" "P2" with p1_commitments := mupdate (fun _ => none) 1 5 }
    "P1" 5 7 (fun _ => none) 42 h
  exact ⟨h, h2.1, h2.2⟩

/-- Example: a completed game (for the GameAlreadyEnded condition). -/
def gEnded : Game := { freshGame "P1" "P2" with is_complete := true }

theorem commit_error_sound (g : Game) (pl : PlayerId) (c : Digest) (e : Err)
    (h : commit_move (some g) pl c = .error e) :
    (e = .NotPlayer ∧ ¬(pl = g.player1 ∨ pl = g.player2)) ∨
    (e = .GameAlreadyEnded ∧ g.is_complete = true) ∨
    (e = .AlreadyCommitted ∧ g.commitmentOf pl ≠ none) := by
  unfold commit_move at h
  dsimp only at h
  by_cases hpl : pl = g.player1 ∨ pl = g.player2
  · rw [if_pos hpl] at h
    cases hic : g.is_complete with
    | true => rw [hic, if_pos rfl] at h; cases h; exact Or.inr (Or.inl ⟨rfl, rfl⟩)
    | false =>
      rw [hic, if_neg Bool.false_ne_true] at h
      by_cases hp1 : pl = g.player1
      · rw [if_pos hp1] at h
        cases hc : g.p1_commitments g.current_round with
        | some d =>
          rw [hc] at h
          cases h
          exact Or.inr (Or.inr ⟨rfl, by simp [Game.commitmentOf, hp1, hc]⟩)
        | none => rw [hc] at h; simp at h
      · rw [if_neg hp1] at h
        cases hc : g.p2_commitments g.current_round with
        | some d =>
          rw [hc] at h
          cases h
          exact Or.inr (Or.inr ⟨rfl, by simp [Game.commitmentOf, hp1, hc]⟩)
        | none => rw [hc] at h; simp at h
  · rw [if_neg hpl] at h
    cases h
    exact Or.inl ⟨rfl, hpl⟩

theorem reveal_error_sound (verify : VKey → Digest → Nat → ZkProof → Bool)
    (vkOpt : Option VKey) (tOk : Bool) (g : Game) (pl : PlayerId) (mv : Nat)
    (pf : ZkProof) (e : Err)
    (h : reveal_move verify vkOpt tOk (some g) pl mv pf = .err e) :
    (e = .NotPlayer ∧ ¬(pl = g.player1 ∨ pl = g.player2)) ∨
    (e = .GameAlreadyEnded ∧ g.is_complete = true) ∨
    (e = .VkNotSet ∧ vkOpt = none) ∨
    (e = .BothPlayersNotCommitted ∧
      (g.p1_commitments g.current_round = none ∨
        g.p2_commitments g.current_round = none)) ∨
    (e = .InvalidMove ∧ mv ≠ 0 ∧ mv ≠ 1) ∨
    (e = .AlreadyRevealed ∧ g.moveOf pl ≠ none) ∨
    (e = .VerificationFailed ∧ ∃ vk d, vkOpt = some vk ∧ g.commitmentOf pl = some d ∧
      verify vk d mv pf = false) := by
  unfold reveal_move at h
  dsimp only at h
  by_cases hpl : pl = g.player1 ∨ pl = g.player2
  · rw [if_pos hpl] at h
    cases hic : g.is_complete with
    | true => rw [hic, if_pos rfl] at h; cases h; exact Or.inr (Or.inl ⟨rfl, rfl⟩)
    | false =>
      rw [hic, if_neg Bool.false_ne_true] at h
      cases vkOpt with
      | none =>
        dsimp only at h
        cases h
        exact Or.inr (Or.inr (Or.inl ⟨rfl, rfl⟩))
      | some vk =>
        dsimp only at h
        cases hc1 : g.p1_commitments g.current_round with
        | none =>
          cases hc2 : g.p2_commitments g.current_round with
          | none =>
            rw [hc1, hc2] at h
            cases h
            exact Or.inr (Or.inr (Or.inr (Or.inl ⟨rfl, Or.inl rfl⟩)))
          | some d2 =>
            rw [hc1, hc2] at h
            cases h
            exact Or.inr (Or.inr (Or.inr (Or.inl ⟨rfl, Or.inl rfl⟩)))
        | some d1 =>
          cases hc2 : g.p2_commitments g.current_round with
          | none =>
            rw [hc1, hc2] at h
            cases h
            exact Or.inr (Or.inr (Or.inr (Or.inl ⟨rfl, Or.inr rfl⟩)))
          | some d2 =>
            rw [hc1, hc2] at h
            dsimp only at h
            by_cases hmv : mv = 0 ∨ mv = 1
            · rw [if_pos hmv] at h
              by_cases hp1 : pl = g.player1
              · rw [if_pos hp1] at h
                cases hm : g.p1_moves g.current_round with
                | some m =>
                  rw [hm] at h
                  cases h
                  exact Or.inr (Or.inr (Or.inr (Or.inr (Or.inr (Or.inl
                    ⟨rfl, by simp [Game.moveOf, hp1, hm]⟩)))))
                | none =>
                  rw [hm] at h
                  dsimp only at h
                  by_cases hv : verify vk d1 mv pf = true
                  · rw [if_pos hv] at h
                    exact absurd h (finishReveal_no_err _ _ _)
                  · rw [if_neg hv] at h
                    cases h
                    exact Or.inr (Or.inr (Or.inr (Or.inr (Or.inr (Or.inr
                      ⟨rfl, vk, d1, rfl, by simp [Game.commitmentOf, hp1, hc1],
                        by simpa using hv⟩)))))
              · rw [if_neg hp1] at h
                cases hm : g.p2_moves g.current_round with
                | some m =>
                  rw [hm] at h
                  cases h
                  exact Or.inr (Or.inr (Or.inr (Or.inr (Or.inr (Or.inl
                    ⟨rfl, by simp [Game.moveOf, hp1, hm]⟩)))))
                | none =>
                  rw [hm] at h
                  dsimp only at h
                  by_cases hv : verify vk d2 mv pf = true
                  · rw [if_pos hv] at h
                    exact absurd h (finishReveal_no_err _ _ _)
                  · rw [if_neg hv] at h
                    cases h
                    exact Or.inr (Or.inr (Or.inr (Or.inr (Or.inr (Or.inr
                      ⟨rfl, vk, d2, rfl, by simp [Game.commitmentOf, hp1, hc2],
                        by simpa using hv⟩)))))
            · rw [if_neg hmv] at h
              cases h
              exact Or.inr (Or.inr (Or.inr (Or.inr (Or.inl ⟨rfl, not_or.mp hmv⟩))))
  · rw [if_neg hpl] at h
    cases h
    exact Or.inl ⟨rfl, hpl⟩

/-- C4: the error kinds any public operation can return are exactly the nine
of the bindings Errors object (codes 1–9, matching names); every failure of
get_game, commit_move and reveal_move is a typed result whose kind is raised
only under its error-table condition; and each of the nine kinds is actually
returned at some concrete input. -/
theorem c4_error_taxonomy :
    errorsTable = allErrs.map (fun e => (e.code, e.message)) ∧
    allErrs.Nodup ∧ (∀ e : Err, e ∈ allErrs) ∧
    (∀ store sid e, get_game store sid = .error e →
      e = .GameNotFound ∧ store sid = none) ∧
    (∀ pl c e, commit_move none pl c = .error e → e = .GameNotFound) ∧
    (∀ g pl c e, commit_move (some g) pl c = .error e →
      (e = .NotPlayer ∧ ¬(pl = g.player1 ∨ pl = g.player2)) ∨
      (e = .GameAlreadyEnded ∧ g.is_complete = true) ∨
      (e = .AlreadyCommitted ∧ g.commitmentOf pl ≠ none)) ∧
    (∀ verify vkOpt tOk pl mv pf e,
      reveal_move verify vkOpt tOk none pl mv pf = .err e → e = .GameNotFound) ∧
    (∀ verify vkOpt tOk g pl mv pf e,
      reveal_move verify vkOpt tOk (some g) pl mv pf = .err e →
      (e = .NotPlayer ∧ ¬(pl = g.player1 ∨ pl = g.player2)) ∨
      (e = .GameAlreadyEnded ∧ g.is_complete = true) ∨
      (e = .VkNotSet ∧ vkOpt = none) ∨
      (e = .BothPlayersNotCommitted ∧
        (g.p1_commitments g.current_round = none ∨
          g.p2_commitments g.current_round = none)) ∨
      (e = .InvalidMove ∧ mv ≠ 0 ∧ mv ≠ 1) ∨
      (e = .AlreadyRevealed ∧ g.moveOf pl ≠ none) ∨
      (e = .VerificationFailed ∧ ∃ vk d, vkOpt = some vk ∧
        g.commitmentOf pl = some d ∧ verify vk d mv pf = false)) ∧
    (get_game (fun _ => none) 0 = .error .GameNotFound ∧
      commit_move (some (freshGame "P1" "P2")) "X" 0 = .error .NotPlayer ∧
      commit_move (some gScenarioA) "P1" 9 = .error .AlreadyCommitted ∧
      reveal_move (fun _ _ _ _ => true) (some 0) true (some (freshGame "P1" "P2"))
        "P1" 0 0 = .err .BothPlayersNotCommitted ∧
      commit_move (some gEnded) "P1" 0 = .error .GameAlreadyEnded ∧
      reveal_move (fun _ _ _ _ => true) (some 0) true (some gScenarioA) "P1" 2 0
        = .err .InvalidMove ∧
      reveal_move (fun _ _ _ _ => false) (some 0) true (some gScenarioA) "P2" 0 0
        = .err .VerificationFailed ∧
      reveal_move (fun _ _ _ _ => true) none true (some gScenarioA) "P2" 0 0
        = .err .VkNotSet ∧
      reveal_move (fun _ _ _ _ => true) (some 0) true (some gScenarioA) "P1" 0 0
        = .err .AlreadyRevealed) := by
  refine ⟨rfl, by decide, fun e => by cases e <;> decide, ?_, ?_,
    fun g pl c e h => commit_error_sound g pl c e h, ?_,
    fun verify vkOpt tOk g pl mv pf e h =>
      reveal_error_sound verify vkOpt tOk g pl mv pf e h,
    rfl, rfl, rfl, rfl, rfl, rfl, rfl, rfl, rfl⟩
  · intro store sid e h
    unfold get_game at h
    cases hs : store sid with
    | none => rw [hs] at h; cases h; exact ⟨rfl, rfl⟩
    | some g => rw [hs] at h; cases h
  · intro pl c e h
    cases h
    rfl
  · intro verify vkOpt tOk pl mv pf e h
    cases h
    rfl

theorem c4_error_taxonomy_witness :
    get_game (fun _ => none : Nat → Option Game) 7 = .error .GameNotFound ∧
    (Err.GameNotFound = Err.GameNotFound ∧
      (fun _ => none : Nat → Option Game) 7 = none) :=
  ⟨rfl, c4_error_taxonomy.2.2.2.1 (fun _ => none) 7 .GameNotFound rfl⟩

theorem commit_ok_shape (g g' : Game) (pl : PlayerId) (c : Digest)
    (h : commit_move (some g) pl c = .ok g') :
    g.is_complete = false ∧ g'.current_round = g.current_round ∧
    g'.is_complete = false := by
  unfold commit_move at h
  dsimp only at h
  by_cases hpl : pl = g.player1 ∨ pl = g.player2
  · rw [if_pos hpl] at h
    cases hic : g.is_complete with
    | true => rw [hic, if_pos rfl] at h; cases h
    | false =>
      rw [hic, if_neg Bool.false_ne_true] at h
      refine ⟨rfl, ?_⟩
      by_cases hp1 : pl = g.player1
      · rw [if_pos hp1] at h
        cases hc : g.p1_commitments g.current_round with
        | some d => rw [hc] at h; cases h
        | none => rw [hc] at h; cases h; exact ⟨rfl, rfl⟩
      · rw [if_neg hp1] at h
        cases hc : g.p2_commitments g.current_round with
        | some d => rw [hc] at h; cases h
        | none => rw [hc] at h; cases h; exact ⟨rfl, rfl⟩
  · rw [if_neg hpl] at h
    cases h

theorem finishReveal_ok_shape (tOk : Bool) (g g' : Game) (s : Option SettleOutcome)
    (h : finishReveal tOk g = .ok g' s) :
    g'.p1_commitments = g.p1_commitments ∧ g'.p2_commitments = g.p2_commitments ∧
    ((g'.current_round = g.current_round ∧ g'.is_complete = g.is_complete) ∨
     (g.current_round ≠ 5 ∧ g'.current_round = g.current_round + 1 ∧
       g'.is_complete = g.is_complete) ∨
     (g.current_round = 5 ∧ g'.current_round = 5 ∧ g'.is_complete = true ∧
       g'.p1_moves 5 ≠ none ∧ g'.p2_moves 5 ≠ none)) := by
  unfold finishReveal at h
  cases hm1 : g.p1_moves g.current_round with
  | none =>
    rw [hm1] at h
    cases hm2 : g.p2_moves g.current_round with
    | none => rw [hm2] at h; cases h; exact ⟨rfl, rfl, Or.inl ⟨rfl, rfl⟩⟩
    | some m2 => rw [hm2] at h; cases h; exact ⟨rfl, rfl, Or.inl ⟨rfl, rfl⟩⟩
  | some m1 =>
    rw [hm1] at h
    cases hm2 : g.p2_moves g.current_round with
    | none => rw [hm2] at h; cases h; exact ⟨rfl, rfl, Or.inl ⟨rfl, rfl⟩⟩
    | some m2 =>
      rw [hm2] at h
      dsimp only at h
      by_cases h5 : g.current_round = 5
      · rw [if_pos h5] at h
        cases tOk with
        | false => cases h
        | true =>
          rw [if_pos rfl] at h
          cases h
          refine ⟨rfl, rfl, Or.inr (Or.inr ⟨h5, h5, rfl, ?_, ?_⟩)⟩
          · rw [← h5]; simp [hm1]
          · rw [← h5]; simp [hm2]
      · rw [if_neg h5] at h
        cases h
        exact ⟨rfl, rfl, Or.inr (Or.inl ⟨h5, rfl, rfl⟩)⟩

theorem reveal_ok_shape (verify : VKey → Digest → Nat → ZkProof → Bool)
    (vkOpt : Option VKey) (tOk : Bool) (g g' : Game) (pl : PlayerId) (mv : Nat)
    (pf : ZkProof) (s : Option SettleOutcome)
    (h : reveal_move verify vkOpt tOk (some g) pl mv pf = .ok g' s) :
    g.is_complete = false ∧
    g'.p1_commitments = g.p1_commitments ∧ g'.p2_commitments = g.p2_commitments ∧
    g.p1_commitments g.current_round ≠ none ∧
    g.p2_commitments g.current_round ≠ none ∧
    ((g'.current_round = g.current_round ∧ g'.is_complete = false) ∨
     (g.current_round ≠ 5 ∧ g'.current_round = g.current_round + 1 ∧
       g'.is_complete = false) ∨
     (g.current_round = 5 ∧ g'.current_round = 5 ∧ g'.is_complete = true ∧
       g'.p1_moves 5 ≠ none ∧ g'.p2_moves 5 ≠ none)) := by
  unfold reveal_move at h
  dsimp only at h
  by_cases hpl : pl = g.player1 ∨ pl = g.player2
  · rw [if_pos hpl] at h
    by_cases hic : g.is_complete = true
    · rw [if_pos hic] at h; cases h
    · have hic' : g.is_complete = false := by simpa using hic
      rw [if_neg hic] at h
      refine ⟨hic', ?_⟩
      cases vkOpt with
      | none => dsimp only at h; cases h
      | some vk =>
        dsimp only at h
        cases hc1 : g.p1_commitments g.current_round with
        | none =>
          cases hc2 : g.p2_commitments g.current_round with
          | none => rw [hc1, hc2] at h; cases h
          | some d2 => rw [hc1, hc2] at h; cases h
        | some d1 =>
          cases hc2 : g.p2_commitments g.current_round with
          | none => rw [hc1, hc2] at h; cases h
          | some d2 =>
            rw [hc1, hc2] at h
            dsimp only at h
            by_cases hmv : mv = 0 ∨ mv = 1
            · rw [if_pos hmv] at h
              by_cases hp1 : pl = g.player1
              · rw [if_pos hp1] at h
                cases hm : g.p1_moves g.current_round with
                | some m => rw [hm] at h; cases h
                | none =>
                  rw [hm] at h
                  dsimp only at h
                  by_cases hv : verify vk d1 mv pf = true
                  · rw [if_pos hv] at h
                    have hsh := finishReveal_ok_shape tOk
                      { g with p1_moves := mupdate g.p1_moves g.current_round mv } g' s h
                    refine ⟨hsh.1, hsh.2.1, by simp [hc1], by simp [hc2], ?_⟩
                    rcases hsh.2.2 with ⟨ha, hb⟩ | ⟨ha, hb, hc⟩ | hc3
                    · exact Or.inl ⟨ha, by rw [hb]; exact hic'⟩
                    · exact Or.inr (Or.inl ⟨ha, hb, by rw [hc]; exact hic'⟩)
                    · exact Or.inr (Or.inr hc3)
                  · rw [if_neg hv] at h; cases h
              · rw [if_neg hp1] at h
                cases hm : g.p2_moves g.current_round with
                | some m => rw [hm] at h; cases h
                | none =>
                  rw [hm] at h
                  dsimp only at h
                  by_cases hv : verify vk d2 mv pf = true
                  · rw [if_pos hv] at h
                    have hsh := finishReveal_ok_shape tOk
                      { g with p2_moves := mupdate g.p2_moves g.current_round mv } g' s h
                    refine ⟨hsh.1, hsh.2.1, by simp [hc1], by simp [hc2], ?_⟩
                    rcases hsh.2.2 with ⟨ha, hb⟩ | ⟨ha, hb, hc⟩ | hc3
                    · exact Or.inl ⟨ha, by rw [hb]; exact hic'⟩
                    · exact Or.inr (Or.inl ⟨ha, hb, by rw [hc]; exact hic'⟩)
                    · exact Or.inr (Or.inr hc3)
                  · rw [if_neg hv] at h; cases h
            · rw [if_neg hmv] at h
              cases h
  · rw [if_neg hpl] at h
    cases h

/-- Modelled from the spec: §3 invariants on a Game record — current_round
in [1,5]; is_complete implies current_round = 5 with the round-5
commitment and move slots of both players filled. -/
def GameInv (g : Game) : Prop :=
  1 ≤ g.current_round ∧ g.current_round ≤ 5 ∧
  (g.is_complete = true → g.current_round = 5 ∧
    g.p1_commitments 5 ≠ none ∧ g.p2_commitments 5 ≠ none ∧
    g.p1_moves 5 ≠ none ∧ g.p2_moves 5 ≠ none)

/-- C6: every reachable Game has current_round in [1,5]; current_round never
decreases across successful operations; is_complete, once true, is never
cleared (no successful operation ever unsets it); and is_complete = true
implies current_round = 5 with the round-5 commitment and move slots of both
players filled. -/
theorem c6_invariants :
    (∀ g, Reachable g → GameInv g) ∧
    (∀ g g' pl c, commit_move (some g) pl c = .ok g' →
      g.current_round ≤ g'.current_round ∧
      (g.is_complete = true → g'.is_complete = true)) ∧
    (∀ verify vkOpt tOk g g' pl mv pf s,
      reveal_move verify vkOpt tOk (some g) pl mv pf = .ok g' s →
      g.current_round ≤ g'.current_round ∧
      (g.is_complete = true → g'.is_complete = true)) := by
  have hstep : ∀ verify vkOpt tOk g g' pl mv pf s,
      reveal_move verify vkOpt tOk (some g) pl mv pf = .ok g' s →
      GameInv g → GameInv g' := by
    intro verify vkOpt tOk g g' pl mv pf s h hInv
    obtain ⟨hic, hpc1, hpc2, hcn1, hcn2, hcase⟩ :=
      reveal_ok_shape verify vkOpt tOk g g' pl mv pf s h
    rcases hcase with ⟨h1, h2⟩ | ⟨hne5, hr', hc'⟩ | ⟨h5, hr', hc', hm1, hm2⟩
    · exact ⟨by rw [h1]; exact hInv.1, by rw [h1]; exact hInv.2.1,
        fun hcm => by rw [h2] at hcm; cases hcm⟩
    · refine ⟨by rw [hr']; omega, by rw [hr']; have := hInv.2.1; omega,
        fun hcm => by rw [hc'] at hcm; cases hcm⟩
    · refine ⟨by rw [hr']; omega, by rw [hr'],
        fun _ => ⟨hr', ?_, ?_, hm1, hm2⟩⟩
      · rw [hpc1, ← h5]; exact hcn1
      · rw [hpc2, ← h5]; exact hcn2
  refine ⟨?_, ?_, ?_⟩
  · intro g hg
    induction hg with
    | start p1 p2 =>
      exact ⟨by simp [freshGame], by simp [freshGame], by simp [freshGame]⟩
    | commit hr hok ih =>
      obtain ⟨_, hcr, hcc⟩ := commit_ok_shape _ _ _ _ hok
      exact ⟨by rw [hcr]; exact ih.1, by rw [hcr]; exact ih.2.1,
        fun hcm => by rw [hcc] at hcm; cases hcm⟩
    | reveal hr hok ih =>
      exact hstep _ _ _ _ _ _ _ _ _ hok ih
  · intro g g' pl c h
    obtain ⟨hic, hcr, hcc⟩ := commit_ok_shape g g' pl c h
    exact ⟨le_of_eq hcr.symm, fun hcm => by rw [hic] at hcm; cases hcm⟩
  · intro verify vkOpt tOk g g' pl mv pf s h
    obtain ⟨hic, _, _, _, _, hcase⟩ :=
      reveal_ok_shape verify vkOpt tOk g g' pl mv pf s h
    refine ⟨?_, fun hcm => by rw [hic] at hcm; cases hcm⟩
    rcases hcase with ⟨h1, _⟩ | ⟨_, hr', _⟩ | ⟨h5, hr', _⟩
    · rw [h1]
    · rw [hr']; omega
    · rw [h5, hr']

theorem c6_invariants_witness :
    Reachable (freshGame "A" "B") ∧ GameInv (freshGame "A" "B") :=
  ⟨Reachable.start "A" "B", c6_invariants.1 (freshGame "A" "B") (Reachable.start "A" "B")⟩

end ZkGameTheory
